import Mathlib

/-!
Shallow embedding of the database layer of the Bom repository
(`src/database.py`): the retry loop `DatabaseManager.execute_with_retry`,
the health probe `DatabaseManager.check_connection`, the chunked runner
`DatabaseManager.batch_operation`, and the transaction helpers
`TransactionManager.transaction` / `TransactionManager.savepoint`.

Python exceptions are modelled by `PyExc`; an operation either returns a
value or raises (`OpResult`).  The retry loop is modelled as iteration
over the list `range max_retries`, producing an outcome together with a
trace of observable events (attempt starts, backoff sleeps, health
checks, reconnects).  The transaction helpers are modelled over an
explicit session state: a list of already committed effects plus a stack
of open transaction frames (head = innermost savepoint), following
SQLAlchemy 2.x session semantics where `Session.commit` and
`Session.rollback` always act on the root transaction: `commit` releases
every SAVEPOINT and makes all pending writes durable, `rollback`
discards every SAVEPOINT together with the enclosing transaction's
pending writes.
-/

namespace Bom

/-- A Python exception: either a `SQLAlchemyError` (caught by the retry
loop in `execute_with_retry`) or any other exception, each carrying a
`Nat` tag to distinguish distinct exception objects. -/
inductive PyExc : Type
  | sqlError (n : Nat)
  | otherError (n : Nat)
deriving DecidableEq

/-- Outcome of running one Python operation: a returned value or a
raised exception. -/
inductive OpResult (α : Type) : Type
  | ok (a : α)
  | raise (e : PyExc)
deriving DecidableEq

/-- Observable events of `execute_with_retry` (src/database.py lines
101-119): the start of an attempt, the exponential-backoff sleep, the
health check (with its boolean answer), and a reconnect. -/
inductive REvent : Type
  | attemptStart (i : Nat)
  | sleep (d : Nat)
  | healthCheck (i : Nat) (ok : Bool)
  | reconnect (i : Nat)
deriving DecidableEq

/-- Overall outcome of `execute_with_retry`: a value returned by a
successful attempt, the implicit `None` return when the loop body never
ran or never recorded an exception, or a raised exception. -/
inductive RetryOutcome (α : Type) : Type
  | value (a : α)
  | noneReturn
  | raised (e : PyExc)
deriving DecidableEq

/-- The events emitted for one failed (SQLAlchemyError) attempt
(src/database.py lines 111-116): the attempt itself, then - only when
`attempt < max_retries - 1` - the backoff sleep of `2 ^ attempt`, the
health check, and a reconnect exactly when the health check reported
unhealthy. -/
def failEvents (healthy : Nat → Bool) (m attempt : Nat) : List REvent :=
  REvent.attemptStart attempt ::
    (if attempt < m - 1 then
      REvent.sleep (2 ^ attempt) ::
        REvent.healthCheck attempt (healthy attempt) ::
          (if healthy attempt then [] else [REvent.reconnect attempt])
    else [])

/-- The `for attempt in range(max_retries)` loop of
`execute_with_retry` (src/database.py lines 105-119), iterating over the
remaining attempt indices.  `behave i` is the outcome of running the
operation on attempt `i`; `healthy i` is the answer of the health check
performed after attempt `i`.  The accumulator models `last_exception`. -/
def retryGo (behave : Nat → OpResult α) (healthy : Nat → Bool) (m : Nat) :
    List Nat → Option PyExc → RetryOutcome α × List REvent
  | [], lastExc =>
      (match lastExc with
       | some e => RetryOutcome.raised e
       | none => RetryOutcome.noneReturn, [])
  | attempt :: rest, _ =>
      match behave attempt with
      | OpResult.ok a => (RetryOutcome.value a, [REvent.attemptStart attempt])
      | OpResult.raise (PyExc.otherError n) =>
          (RetryOutcome.raised (PyExc.otherError n), [REvent.attemptStart attempt])
      | OpResult.raise (PyExc.sqlError n) =>
          let step := retryGo behave healthy m rest (some (PyExc.sqlError n))
          (step.1, failEvents healthy m attempt ++ step.2)

/-- `DatabaseManager.execute_with_retry` (src/database.py lines
101-119).  `max_retries` is a Python `int`; `range` of a non-positive
int is empty, which `Int.toNat` reproduces. -/
def execute_with_retry (behave : Nat → OpResult α) (healthy : Nat → Bool)
    (maxRetries : Int) : RetryOutcome α × List REvent :=
  retryGo behave healthy maxRetries.toNat (List.range maxRetries.toNat) none

/-- The attempt indices recorded in a retry trace. -/
def attemptsOf (tr : List REvent) : List Nat :=
  tr.filterMap (fun ev =>
    match ev with
    | REvent.attemptStart i => some i
    | _ => none)

/-- `DatabaseManager.check_connection` (src/database.py lines 60-68):
the probe (`SELECT 1` against the engine) either succeeds (`none`) or
raises some exception (`some e`); the `except Exception` clause catches
every exception and returns `False`, so the method itself never
raises. -/
def check_connection (probe : Option PyExc) : OpResult Bool :=
  match probe with
  | none => OpResult.ok true
  | some _ => OpResult.ok false

/-- State of the database as seen through one SQLAlchemy session:
`committed` is the list of effects made durable in the database, and
`frames` is the stack of open transaction scopes (head = innermost
SAVEPOINT, last = outer transaction), each holding the effects written
inside it that are not yet durable.  Effects are abstract `Nat` tags. -/
structure SessionState : Type where
  committed : List Nat
  frames : List (List Nat)
deriving DecidableEq

/-- An ORM write issued through the session: the effect joins the
innermost open transaction frame (SQLAlchemy autobegins a transaction
when none is open). -/
def writeEff (s : SessionState) (n : Nat) : SessionState :=
  match s.frames with
  | [] => { s with frames := [[n]] }
  | f :: rest => { s with frames := (f ++ [n]) :: rest }

/-- All the writes performed by one operation, in order. -/
def writeAll (effs : List Nat) (s : SessionState) : SessionState :=
  effs.foldl writeEff s

/-- `session.begin_nested()`: opens a SAVEPOINT scope. -/
def beginNested (s : SessionState) : SessionState :=
  { s with frames := [] :: s.frames }

/-- `session.commit()` under SQLAlchemy 2.x semantics: commits the
outermost database transaction unconditionally, releasing any SAVEPOINTs
in effect on the way, so every pending write of every open frame becomes
durable (in chronological, outermost-first order) and no frame stays
open.  (Savepoint-local commit would require calling `commit` on the
`SessionTransaction` returned by `begin_nested()`, which the source
never does.) -/
def sessionCommit (s : SessionState) : SessionState :=
  { committed := s.committed ++ s.frames.reverse.flatten, frames := [] }

/-- `session.rollback()` under SQLAlchemy 2.x semantics: rolls back the
topmost database transaction, discarding every SAVEPOINT and every open
frame's pending writes, the enclosing transaction's included.
(Savepoint-local rollback would require calling `rollback` on the
`SessionTransaction` returned by `begin_nested()`, which the source
never does.) -/
def sessionRollback (s : SessionState) : SessionState :=
  { s with frames := [] }

/-- Run a list of operations in sequence on one session, as the loops of
`TransactionManager.transaction` (src/database.py lines 167-170) and
`DatabaseManager.batch_operation` (lines 130-133) do.  Each operation is
given as the writes it issues plus its outcome; the run stops at the
first operation that raises, and the results collected so far are
discarded (they lived in a local Python list). -/
def runOps : List (List Nat × OpResult α) → SessionState →
    Except PyExc (List α) × SessionState
  | [], s => (Except.ok [], s)
  | (effs, r) :: rest, s =>
      let s2 := writeAll effs s
      match r with
      | OpResult.raise e => (Except.error e, s2)
      | OpResult.ok a =>
          match runOps rest s2 with
          | (Except.ok as, s3) => (Except.ok (a :: as), s3)
          | (Except.error e, s3) => (Except.error e, s3)

/-- Session-level events observable from outside: a durable commit of a
transactional scope or a rollback of one. -/
inductive SEvent : Type
  | commit
  | rollback
deriving DecidableEq

/-- `TransactionManager.transaction` (src/database.py lines 163-177):
run the operations in order on the session, commit once after all of
them succeed and return their results; on any failure roll back and
re-raise. -/
def transaction (ops : List (List Nat × OpResult α)) (s : SessionState) :
    OpResult (List α) × SessionState × List SEvent :=
  match runOps ops s with
  | (Except.ok rs, s2) => (OpResult.ok rs, sessionCommit s2, [SEvent.commit])
  | (Except.error e, s2) => (OpResult.raise e, sessionRollback s2, [SEvent.rollback])

/-- `TransactionManager.savepoint` (src/database.py lines 179-190):
open a SAVEPOINT with `session.begin_nested()`, run the operation, then
`session.commit()` on success or `session.rollback()` plus re-raise on
failure - both of which act on the root transaction, not on the
SAVEPOINT.  The `async with` exit then finds its own transaction already
closed and is a no-op. -/
def savepoint (effs : List Nat) (r : OpResult α) (s : SessionState) :
    OpResult α × SessionState :=
  let s2 := writeAll effs (beginNested s)
  match r with
  | OpResult.ok a => (OpResult.ok a, sessionCommit s2)
  | OpResult.raise e => (OpResult.raise e, sessionRollback s2)

/-- The chunk loop of `DatabaseManager.batch_operation`
(src/database.py lines 125-140): take the next `batch_size` operations,
run them on a fresh session over the current database contents `db`,
commit the chunk on success and continue with the rest, or roll back and
re-raise on the first failure.  A `batch_size` of zero makes Python's
`range` raise `ValueError`, modelled by the guarding branch. -/
def batchGo (b : Nat) (ops : List (List Nat × OpResult α)) (acc : List α)
    (db : List Nat) : OpResult (List α) × List Nat × List SEvent :=
  if hb : b = 0 then (OpResult.raise (PyExc.otherError 0), db, [])
  else
    match ops with
    | [] => (OpResult.ok acc, db, [])
    | op1 :: more =>
        match runOps ((op1 :: more).take b) ⟨db, []⟩ with
        | (Except.error e, s2) =>
            (OpResult.raise e, (sessionRollback s2).committed, [SEvent.rollback])
        | (Except.ok rs, s2) =>
            let s3 := sessionCommit s2
            match batchGo b ((op1 :: more).drop b) (acc ++ rs) s3.committed with
            | (res, db2, evs) => (res, db2, SEvent.commit :: evs)
termination_by ops.length
decreasing_by
  simp_all only [List.length_drop, List.length_cons]
  omega

/-- `DatabaseManager.batch_operation` (src/database.py lines 121-142),
started with the empty `results` accumulator on a database holding
`db`. -/
def batch_operation (ops : List (List Nat × OpResult α)) (b : Nat)
    (db : List Nat) : OpResult (List α) × List Nat × List SEvent :=
  batchGo b ops [] db

/-- The partition of a list into consecutive chunks of `b` elements
(the last chunk possibly smaller), as described by the spec's batch
policy; used to state what `batch_operation` commits per chunk. -/
def chunksOf (b : Nat) (l : List β) : List (List β) :=
  if b = 0 then []
  else
    match l with
    | [] => []
    | x :: xs => (x :: xs).take b :: chunksOf b ((x :: xs).drop b)
termination_by l.length
decreasing_by
  simp_all only [List.length_drop, List.length_cons]
  omega

/-- A list of operations all of which succeed: each is given by its
writes and the value it returns. -/
def allOk (vals : List (List Nat × α)) : List (List Nat × OpResult α) :=
  vals.map fun p => (p.1, OpResult.ok p.2)

section RetryLemmas

variable {α : Type} (behave : Nat → OpResult α) (healthy : Nat → Bool)

theorem attemptsOf_append (x y : List REvent) :
    attemptsOf (x ++ y) = attemptsOf x ++ attemptsOf y :=
  List.filterMap_append x y _

theorem attemptsOf_failEvents (m i : Nat) :
    attemptsOf (failEvents healthy m i) = [i] := by
  unfold failEvents attemptsOf
  split
  case isTrue h =>
    cases hh : healthy i <;> simp [List.filterMap]
  case isFalse h => simp [List.filterMap]

theorem attemptsOf_flatMap_failEvents (m : Nat) (l : List Nat) :
    attemptsOf (l.flatMap (failEvents healthy m)) = l := by
  induction l with
  | nil => rfl
  | cons x xs ih =>
    rw [List.flatMap_cons, attemptsOf_append, attemptsOf_failEvents, ih]
    rfl

theorem retryGo_attempt_bound (m : Nat) :
    ∀ (l : List Nat) (le : Option PyExc),
      (attemptsOf (retryGo behave healthy m l le).2).length ≤ l.length := by
  intro l
  induction l with
  | nil => intro le; cases le <;> simp [retryGo, attemptsOf]
  | cons a rest ih =>
    intro le
    rw [retryGo]
    cases hba : behave a with
    | ok v => simp [attemptsOf, List.filterMap]
    | raise e =>
      cases e with
      | otherError n => simp [attemptsOf, List.filterMap]
      | sqlError n =>
        simp only [List.length_cons]
        rw [attemptsOf_append, attemptsOf_failEvents]
        simp only [List.length_append, List.length_singleton]
        have := ih (some (PyExc.sqlError n))
        omega

theorem retryGo_sqlFailures (m : Nat) (ids : Nat → Nat) :
    ∀ (nn c : Nat) (rest : List Nat) (le : Option PyExc),
      (∀ i, c ≤ i → i < c + nn →
        behave i = OpResult.raise (PyExc.sqlError (ids i))) →
      retryGo behave healthy m (List.range' c nn ++ rest) le
        = ((retryGo behave healthy m rest
              (if nn = 0 then le
               else some (PyExc.sqlError (ids (c + nn - 1))))).1,
           (List.range' c nn).flatMap (failEvents healthy m)
             ++ (retryGo behave healthy m rest
              (if nn = 0 then le
               else some (PyExc.sqlError (ids (c + nn - 1))))).2) := by
  intro nn
  induction nn with
  | zero => intro c rest le h; simp
  | succ d ih =>
    intro c rest le h
    rw [List.range'_succ]
    simp only [List.cons_append]
    rw [retryGo]
    rw [h c (Nat.le_refl c) (by omega)]
    simp only []
    have hrec := ih (c + 1) rest (some (PyExc.sqlError (ids c)))
      (fun i hi1 hi2 => h i (by omega) (by omega))
    rw [hrec]
    have harith : (if d = 0 then some (PyExc.sqlError (ids c))
        else some (PyExc.sqlError (ids (c + 1 + d - 1))))
        = some (PyExc.sqlError (ids (c + (d + 1) - 1))) := by
      split
      case isTrue hz => subst hz; simp
      case isFalse hz =>
        have heq : c + 1 + d - 1 = c + (d + 1) - 1 := by omega
        rw [heq]
    rw [harith]
    have hif : (if d + 1 = 0 then le
        else some (PyExc.sqlError (ids (c + (d + 1) - 1))))
        = some (PyExc.sqlError (ids (c + (d + 1) - 1))) := by simp
    rw [hif]
    rw [List.flatMap_cons]
    simp [List.append_assoc]

end RetryLemmas

/-- Claim C1: for every operation and every `max_retries`,
`DatabaseManager.execute_with_retry` attempts the operation at most
`max_retries` times; and if - after a prefix of database-level failures -
some attempt within the budget succeeds, its result is returned to the
caller and no further attempts are made (the attempts are exactly
`0 .. k`). -/
theorem execute_with_retry_attempt_budget {α : Type}
    (behave : Nat → OpResult α) (healthy : Nat → Bool) (m : Int)
    (ids : Nat → Nat) :
    (attemptsOf (execute_with_retry behave healthy m).2).length ≤ m.toNat ∧
    (∀ k a,
      (∀ i, i < k → behave i = OpResult.raise (PyExc.sqlError (ids i))) →
      behave k = OpResult.ok a → k < m.toNat →
      (execute_with_retry behave healthy m).1 = RetryOutcome.value a ∧
      attemptsOf (execute_with_retry behave healthy m).2
        = List.range (k + 1)) := by
  constructor
  · have h := retryGo_attempt_bound behave healthy m.toNat
      (List.range m.toNat) none
    simpa [execute_with_retry, List.length_range] using h
  · intro k a hpre hk hlt
    have hsplit : List.range m.toNat
        = List.range' 0 k ++ (k :: List.range' (k + 1) (m.toNat - k - 1)) := by
      rw [List.range_eq_range']
      have h0 : m.toNat = m.toNat - k + k := by omega
      rw [h0, ← List.range'_append 0 k (m.toNat - k) 1]
      have h1 : m.toNat - k = m.toNat - k - 1 + 1 := by omega
      rw [h1, List.range'_succ]
      simp
    have hmain := retryGo_sqlFailures behave healthy m.toNat ids k 0
      (k :: List.range' (k + 1) (m.toNat - k - 1)) none
      (fun i _ hi2 => hpre i (by omega))
    rw [show execute_with_retry behave healthy m
          = retryGo behave healthy m.toNat (List.range m.toNat) none from rfl,
        hsplit, hmain, retryGo, hk]
    refine ⟨rfl, ?_⟩
    rw [attemptsOf_append, attemptsOf_flatMap_failEvents]
    rw [show attemptsOf [REvent.attemptStart k] = [k] from rfl]
    rw [List.range_succ, List.range_eq_range']

/-- Witness for C1: with an operation that fails once with a
`SQLAlchemyError` and then returns 42, a budget of 3 returns 42 after
exactly the attempts 0 and 1. -/
theorem execute_with_retry_attempt_budget_witness :
    (execute_with_retry (α := Nat)
      (fun i => if i = 0 then OpResult.raise (PyExc.sqlError 5)
                else OpResult.ok 42)
      (fun _ => true) 3).1 = RetryOutcome.value 42 ∧
    attemptsOf (execute_with_retry (α := Nat)
      (fun i => if i = 0 then OpResult.raise (PyExc.sqlError 5)
                else OpResult.ok 42)
      (fun _ => true) 3).2 = List.range 2 :=
  (execute_with_retry_attempt_budget
      (fun i => if i = 0 then OpResult.raise (PyExc.sqlError 5)
                else OpResult.ok 42)
      (fun _ => true) 3 (fun _ => 5)).2 1 42
    (by
      intro i hi
      have hz : i = 0 := by omega
      subst hz
      rfl)
    (by rfl) (by decide)

/-- Claim C2: if every attempt fails with a database-level
(`SQLAlchemyError`) failure, then after the budget of `max_retries`
attempts is exhausted, `DatabaseManager.execute_with_retry` raises the
failure recorded on the last attempt. -/
theorem execute_with_retry_raises_last_failure {α : Type}
    (behave : Nat → OpResult α) (healthy : Nat → Bool) (m : Int)
    (ids : Nat → Nat) (hm : 0 < m)
    (h : ∀ i, i < m.toNat →
      behave i = OpResult.raise (PyExc.sqlError (ids i))) :
    (execute_with_retry behave healthy m).1
      = RetryOutcome.raised (PyExc.sqlError (ids (m.toNat - 1))) := by
  have hsplit : List.range m.toNat = List.range' 0 m.toNat ++ [] := by
    rw [List.range_eq_range', List.append_nil]
  have hmain := retryGo_sqlFailures behave healthy m.toNat ids m.toNat 0 [] none
    (fun i _ hi2 => h i (by omega))
  have hnz : ¬ (m.toNat = 0) := by omega
  rw [show execute_with_retry behave healthy m
        = retryGo behave healthy m.toNat (List.range m.toNat) none from rfl,
      hsplit, hmain, if_neg hnz]
  simp [retryGo]

/-- Witness for C2: three attempts all failing with `SQLAlchemyError`
tags 0, 1, 2 make the call raise the tag-2 failure of the last
attempt. -/
theorem execute_with_retry_raises_last_failure_witness :
    (execute_with_retry (α := Nat)
      (fun i => OpResult.raise (PyExc.sqlError i)) (fun _ => true) 3).1
      = RetryOutcome.raised (PyExc.sqlError 2) :=
  execute_with_retry_raises_last_failure
    (fun i => OpResult.raise (PyExc.sqlError i)) (fun _ => true) 3
    (fun i => i) (by decide) (fun i _ => rfl)

/-- Claim C3: when every attempt fails at the database level, the trace
of `DatabaseManager.execute_with_retry` is exactly, for each attempt
`i` of `0 .. max_retries - 1` in order: the attempt, then - only when
`i < max_retries - 1` - a wait of `2 ^ i` time units followed by a
health check and by a pool-recreating reconnect exactly when that check
reported unhealthy; in particular nothing follows the final attempt
(see `failEvents`). -/
theorem execute_with_retry_backoff_reconnect {α : Type}
    (behave : Nat → OpResult α) (healthy : Nat → Bool) (m : Int)
    (ids : Nat → Nat) (hm : 0 < m)
    (h : ∀ i, i < m.toNat →
      behave i = OpResult.raise (PyExc.sqlError (ids i))) :
    (execute_with_retry behave healthy m).2
      = (List.range m.toNat).flatMap (failEvents healthy m.toNat) := by
  have hsplit : List.range m.toNat = List.range' 0 m.toNat ++ [] := by
    rw [List.range_eq_range', List.append_nil]
  have hmain := retryGo_sqlFailures behave healthy m.toNat ids m.toNat 0 [] none
    (fun i _ hi2 => h i (by omega))
  have hnz : ¬ (m.toNat = 0) := by omega
  rw [show execute_with_retry behave healthy m
        = retryGo behave healthy m.toNat (List.range m.toNat) none from rfl,
      hsplit, hmain, if_neg hnz]
  simp [retryGo]

/-- Witness for C3: two failing attempts with an unhealthy check after
attempt 0 give the trace: attempt 0, sleep 1, health check (false),
reconnect, attempt 1, and nothing after the final attempt. -/
theorem execute_with_retry_backoff_reconnect_witness :
    (execute_with_retry (α := Nat)
      (fun i => OpResult.raise (PyExc.sqlError i)) (fun _ => false) 2).2
      = [REvent.attemptStart 0, REvent.sleep 1, REvent.healthCheck 0 false,
         REvent.reconnect 0, REvent.attemptStart 1] := by
  rw [execute_with_retry_backoff_reconnect
    (fun i => OpResult.raise (PyExc.sqlError i)) (fun _ => false) 2
    (fun i => i) (by decide) (fun i _ => rfl)]
  decide

/-- Claim C9: for `max_retries` equal to 0 or any non-positive value,
`DatabaseManager.execute_with_retry` returns `None` without executing
the operation at all (the trace is empty) and without raising. -/
theorem execute_with_retry_nonpositive_budget {α : Type}
    (behave : Nat → OpResult α) (healthy : Nat → Bool) (m : Int)
    (hm : m ≤ 0) :
    execute_with_retry behave healthy m = (RetryOutcome.noneReturn, []) := by
  rw [show execute_with_retry behave healthy m
        = retryGo behave healthy m.toNat (List.range m.toNat) none from rfl,
      Int.toNat_of_nonpos hm]
  rfl

/-- Witness for C9: a budget of -2 returns `None` with an empty trace
even though the operation would succeed. -/
theorem execute_with_retry_nonpositive_budget_witness :
    execute_with_retry (α := Nat) (fun _ => OpResult.ok 7) (fun _ => true)
      (-2) = (RetryOutcome.noneReturn, []) :=
  execute_with_retry_nonpositive_budget (fun _ => OpResult.ok 7)
    (fun _ => true) (-2) (by decide)

/-- Claim C10: an exception that is not a `SQLAlchemyError`, raised on
attempt `k` after `k` database-level failures, propagates immediately:
the call raises it, the trace ends right at the start of attempt `k`,
with no backoff wait, no health check and no reconnect for that
attempt. -/
theorem execute_with_retry_foreign_exception {α : Type}
    (behave : Nat → OpResult α) (healthy : Nat → Bool) (m : Int)
    (ids : Nat → Nat) (k n : Nat) (hk : k < m.toNat)
    (hpre : ∀ i, i < k → behave i = OpResult.raise (PyExc.sqlError (ids i)))
    (hb : behave k = OpResult.raise (PyExc.otherError n)) :
    execute_with_retry behave healthy m
      = (RetryOutcome.raised (PyExc.otherError n),
         (List.range k).flatMap (failEvents healthy m.toNat)
           ++ [REvent.attemptStart k]) := by
  have hsplit : List.range m.toNat
      = List.range' 0 k ++ (k :: List.range' (k + 1) (m.toNat - k - 1)) := by
    rw [List.range_eq_range']
    have h0 : m.toNat = m.toNat - k + k := by omega
    rw [h0, ← List.range'_append 0 k (m.toNat - k) 1]
    have h1 : m.toNat - k = m.toNat - k - 1 + 1 := by omega
    rw [h1, List.range'_succ]
    simp
  have hmain := retryGo_sqlFailures behave healthy m.toNat ids k 0
    (k :: List.range' (k + 1) (m.toNat - k - 1)) none
    (fun i _ hi2 => hpre i (by omega))
  rw [show execute_with_retry behave healthy m
        = retryGo behave healthy m.toNat (List.range m.toNat) none from rfl,
      hsplit, hmain, retryGo, hb, List.range_eq_range']

/-- Witness for C10: after one database-level failure, a foreign
exception on attempt 1 is raised at once, the trace stopping at the
start of attempt 1. -/
theorem execute_with_retry_foreign_exception_witness :
    execute_with_retry (α := Nat)
      (fun i => if i = 0 then OpResult.raise (PyExc.sqlError 1)
                else OpResult.raise (PyExc.otherError 9))
      (fun _ => false) 3
      = (RetryOutcome.raised (PyExc.otherError 9),
         [REvent.attemptStart 0, REvent.sleep 1, REvent.healthCheck 0 false,
          REvent.reconnect 0, REvent.attemptStart 1]) := by
  rw [execute_with_retry_foreign_exception
    (fun i => if i = 0 then OpResult.raise (PyExc.sqlError 1)
              else OpResult.raise (PyExc.otherError 9))
    (fun _ => false) 3 (fun _ => 1) 1 9 (by decide)
    (by
      intro i hi
      have hz : i = 0 := by omega
      subst hz
      rfl)
    (by rfl)]
  decide

section SessionLemmas

variable {α : Type}

theorem writeAll_append (x y : List Nat) (s : SessionState) :
    writeAll (x ++ y) s = writeAll y (writeAll x s) :=
  List.foldl_append writeEff s x y

theorem writeAll_cons_frame (effs db : List Nat) (f : List Nat)
    (rest : List (List Nat)) :
    writeAll effs ⟨db, f :: rest⟩ = ⟨db, (f ++ effs) :: rest⟩ := by
  induction effs generalizing f with
  | nil => simp [writeAll]
  | cons n t ih =>
    rw [show writeAll (n :: t) (⟨db, f :: rest⟩ : SessionState)
          = writeAll t ⟨db, (f ++ [n]) :: rest⟩ from rfl, ih]
    simp

theorem writeEff_committed (s : SessionState) (n : Nat) :
    (writeEff s n).committed = s.committed := by
  cases s with
  | mk c fr => cases fr <;> rfl

theorem writeAll_committed (effs : List Nat) :
    ∀ s : SessionState, (writeAll effs s).committed = s.committed := by
  induction effs with
  | nil => intro s; rfl
  | cons n t ih =>
    intro s
    rw [show writeAll (n :: t) s = writeAll t (writeEff s n) from rfl,
        ih, writeEff_committed]

theorem sessionRollback_committed (s : SessionState) :
    (sessionRollback s).committed = s.committed := by
  cases s with
  | mk c fr => cases fr <;> rfl

theorem sessionCommit_writeAll_fresh (effs db : List Nat) :
    sessionCommit (writeAll effs ⟨db, []⟩) = ⟨db ++ effs, []⟩ := by
  cases effs with
  | nil => simp [writeAll, sessionCommit]
  | cons n t =>
    rw [show writeAll (n :: t) (⟨db, []⟩ : SessionState)
          = writeAll t ⟨db, [[n]]⟩ from rfl,
        writeAll_cons_frame]
    simp [sessionCommit]

theorem runOps_all_ok (vals : List (List Nat × α)) :
    ∀ s : SessionState,
      runOps (allOk vals) s
        = (Except.ok (vals.map Prod.snd),
           writeAll (vals.map Prod.fst).flatten s) := by
  induction vals with
  | nil => intro s; simp [allOk, runOps, writeAll]
  | cons v vs ih =>
    intro s
    rw [show allOk (v :: vs) = (v.1, OpResult.ok v.2) :: allOk vs from rfl]
    rw [runOps, ih (writeAll v.1 s)]
    simp [writeAll_append]

theorem runOps_first_raise (pre : List (List Nat × α)) (ef : List Nat)
    (e : PyExc) (rest : List (List Nat × OpResult α)) :
    ∀ s : SessionState,
      runOps (allOk pre ++ (ef, OpResult.raise e) :: rest) s
        = (Except.error e,
           writeAll ((pre.map Prod.fst).flatten ++ ef) s) := by
  induction pre with
  | nil => intro s; simp [allOk, runOps, writeAll_append]
  | cons v vs ih =>
    intro s
    rw [show allOk (v :: vs) = (v.1, OpResult.ok v.2) :: allOk vs from rfl]
    rw [List.cons_append, runOps, ih (writeAll v.1 s)]
    simp [writeAll_append]

end SessionLemmas

/-- Claim C8: `DatabaseManager.check_connection` never raises: it
returns `True` when the probe query against the engine succeeds and
`False` when any exception occurs during the probe. -/
theorem check_connection_total :
    check_connection none = OpResult.ok true ∧
    ∀ e : PyExc, check_connection (some e) = OpResult.ok false :=
  ⟨rfl, fun _ => rfl⟩

/-- Claim C6 (refuted by evaluation - the code is the slip, the claim
the intent): on a session whose enclosing open transaction holds the
pending write 1, `TransactionManager.savepoint` with an operation that
writes 2 does NOT confine itself to the nested scope: when the operation
fails, `session.rollback()` rolls back to the root, discarding the
enclosing transaction's pending write as well (no frame survives); when
the operation succeeds, `session.commit()` commits to the root, making
both writes durable although the caller never committed the outer
transaction.  This contradicts the claimed savepoint-local rollback and
the function's own docstring (partial rollback). -/
theorem savepoint_aborts_outer :
    savepoint (α := Nat) [2] (OpResult.raise (PyExc.sqlError 0))
      ⟨[], [[1]]⟩
      = (OpResult.raise (PyExc.sqlError 0), ⟨[], []⟩) ∧
    savepoint (α := Nat) [2] (OpResult.ok 7) ⟨[], [[1]]⟩
      = (OpResult.ok 7, ⟨[1, 2], []⟩) := by
  decide

/-- Claim C7: `TransactionManager.transaction` on a session whose open
outer transaction holds pending writes `f`: when every operation
succeeds it runs them in input order, commits exactly once at the end
(all writes, in order, become durable) and returns the results in input
order; when some operation fails the whole transaction is rolled back -
nothing new is committed, the pending writes are discarded - and the
failure is re-raised. -/
theorem transaction_atomicity {α : Type} :
    ∀ (vals : List (List Nat × α)) (pre : List (List Nat × α))
      (ef : List Nat) (e : PyExc) (rest : List (List Nat × OpResult α))
      (db f : List Nat),
      transaction (allOk vals) ⟨db, [f]⟩
        = (OpResult.ok (vals.map Prod.snd),
           ⟨db ++ (f ++ (vals.map Prod.fst).flatten), []⟩,
           [SEvent.commit]) ∧
      transaction (allOk pre ++ (ef, OpResult.raise e) :: rest) ⟨db, [f]⟩
        = (OpResult.raise e, ⟨db, []⟩, [SEvent.rollback]) := by
  intro vals pre ef e rest db f
  constructor
  · rw [transaction, runOps_all_ok, writeAll_cons_frame]
    simp [sessionCommit]
  · rw [transaction, runOps_first_raise, writeAll_cons_frame]
    simp [sessionRollback]

section BatchLemmas

variable {α : Type} {β : Type}

theorem batchGo_nil (b : Nat) (hb : b ≠ 0) (acc : List α) (db : List Nat) :
    batchGo b ([] : List (List Nat × OpResult α)) acc db
      = (OpResult.ok acc, db, []) := by
  rw [batchGo]
  simp [hb]

theorem batchGo_cons (b : Nat) (hb : b ≠ 0)
    (ops : List (List Nat × OpResult α)) (hops : ops ≠ [])
    (acc : List α) (db : List Nat) :
    batchGo b ops acc db
      = match runOps (ops.take b) (⟨db, []⟩ : SessionState) with
        | (Except.error e, s2) =>
            (OpResult.raise e, (sessionRollback s2).committed,
             [SEvent.rollback])
        | (Except.ok rs, s2) =>
            match batchGo b (ops.drop b) (acc ++ rs)
                (sessionCommit s2).committed with
            | (res, db2, evs) => (res, db2, SEvent.commit :: evs) := by
  cases ops with
  | nil => exact absurd rfl hops
  | cons op1 more =>
    rw [batchGo]
    simp [hb]

theorem chunksOf_nil (b : Nat) : chunksOf b ([] : List β) = [] := by
  rw [chunksOf]
  split
  case isTrue h => rfl
  case isFalse h => rfl

theorem chunksOf_cons (b : Nat) (hb : b ≠ 0) (l : List β) (hl : l ≠ []) :
    chunksOf b l = l.take b :: chunksOf b (l.drop b) := by
  cases l with
  | nil => exact absurd rfl hl
  | cons x xs =>
    rw [chunksOf]
    simp [hb]

theorem allOk_take (b : Nat) (vals : List (List Nat × α)) :
    (allOk vals).take b = allOk (vals.take b) := by
  simp [allOk, List.map_take]

theorem allOk_drop (b : Nat) (vals : List (List Nat × α)) :
    (allOk vals).drop b = allOk (vals.drop b) := by
  simp [allOk, List.map_drop]

theorem allOk_length (vals : List (List Nat × α)) :
    (allOk vals).length = vals.length := by
  simp [allOk]

theorem batchGo_all_ok (b : Nat) (hb : b ≠ 0) :
    ∀ (n : Nat) (vals : List (List Nat × α)) (acc : List α) (db : List Nat),
      vals.length ≤ n →
      batchGo b (allOk vals) acc db
        = (OpResult.ok (acc ++ vals.map Prod.snd),
           db ++ (vals.map Prod.fst).flatten,
           (chunksOf b vals).map fun _ => SEvent.commit) := by
  intro n
  induction n with
  | zero =>
    intro vals acc db hlen
    have hv : vals = [] := by
      cases vals with
      | nil => rfl
      | cons v vs => simp at hlen
    subst hv
    rw [show allOk ([] : List (List Nat × α)) = [] from rfl,
        batchGo_nil b hb, chunksOf_nil]
    simp
  | succ n2 ih =>
    intro vals acc db hlen
    cases vals with
    | nil =>
      rw [show allOk ([] : List (List Nat × α)) = [] from rfl,
          batchGo_nil b hb, chunksOf_nil]
      simp
    | cons v vs =>
      have hne : allOk (v :: vs) ≠ [] := by simp [allOk]
      rw [batchGo_cons b hb _ hne, allOk_take, runOps_all_ok]
      simp only []
      rw [sessionCommit_writeAll_fresh, allOk_drop]
      have hlen2 : ((v :: vs).drop b).length ≤ n2 := by
        simp only [List.length_drop, List.length_cons]
        simp only [List.length_cons] at hlen
        omega
      rw [ih ((v :: vs).drop b) (acc ++ ((v :: vs).take b).map Prod.snd)
          (db ++ (((v :: vs).take b).map Prod.fst).flatten) hlen2]
      rw [chunksOf_cons b hb (v :: vs) (by simp)]
      simp only [List.map_cons]
      have hsnd : acc ++ ((v :: vs).take b).map Prod.snd
            ++ ((v :: vs).drop b).map Prod.snd
          = acc ++ (v :: vs).map Prod.snd := by
        rw [List.append_assoc, ← List.map_append, List.take_append_drop]
      have hfst : db ++ (((v :: vs).take b).map Prod.fst).flatten
            ++ (((v :: vs).drop b).map Prod.fst).flatten
          = db ++ ((v :: vs).map Prod.fst).flatten := by
        rw [List.append_assoc, ← List.flatten_append, ← List.map_append,
            List.take_append_drop]
      rw [hsnd, hfst]
      simp

theorem batchGo_raise_in_first_chunk (b : Nat) (hb : b ≠ 0) (ef : List Nat)
    (e : PyExc) (rest : List (List Nat × OpResult α))
    (pre : List (List Nat × α)) (acc : List α) (db : List Nat)
    (hjlt : pre.length < b) :
    batchGo b (allOk pre ++ (ef, OpResult.raise e) :: rest) acc db
      = (OpResult.raise e, db, [SEvent.rollback]) := by
  have hne : allOk pre ++ (ef, OpResult.raise e) :: rest ≠ [] := by simp
  rw [batchGo_cons b hb _ hne, List.take_append_eq_append_take,
      List.take_of_length_le (by rw [allOk_length]; omega)]
  have hbl : b - (allOk pre).length = (b - pre.length - 1) + 1 := by
    rw [allOk_length]; omega
  rw [hbl, List.take_succ_cons, runOps_first_raise]
  simp only [sessionRollback_committed, writeAll_committed]

theorem batchGo_first_raise (b : Nat) (hb : b ≠ 0) (ef : List Nat)
    (e : PyExc) (rest : List (List Nat × OpResult α)) :
    ∀ (n : Nat) (pre : List (List Nat × α)) (acc : List α) (db : List Nat),
      pre.length ≤ n →
      batchGo b (allOk pre ++ (ef, OpResult.raise e) :: rest) acc db
        = (OpResult.raise e,
           db ++ ((pre.take (b * (pre.length / b))).map Prod.fst).flatten,
           List.replicate (pre.length / b) SEvent.commit
             ++ [SEvent.rollback]) := by
  intro n
  induction n with
  | zero =>
    intro pre acc db hlen
    have hv : pre = [] := by
      cases pre with
      | nil => rfl
      | cons v vs => simp at hlen
    subst hv
    rw [batchGo_raise_in_first_chunk b hb ef e rest [] acc db (by omega)]
    simp
  | succ n2 ih =>
    intro pre acc db hlen
    by_cases hj : pre.length < b
    · rw [batchGo_raise_in_first_chunk b hb ef e rest pre acc db hj]
      have hq : pre.length / b = 0 := Nat.div_eq_of_lt hj
      rw [hq]
      simp
    · have hble : b ≤ pre.length := by omega
      have hne : allOk pre ++ (ef, OpResult.raise e) :: rest ≠ [] := by simp
      rw [batchGo_cons b hb _ hne, List.take_append_eq_append_take]
      have hz : b - (allOk pre).length = 0 := by rw [allOk_length]; omega
      rw [hz, List.take_zero, List.append_nil, allOk_take, runOps_all_ok]
      simp only []
      rw [sessionCommit_writeAll_fresh, List.drop_append_eq_append_drop]
      rw [show b - (allOk pre).length = 0 from hz, List.drop_zero,
          allOk_drop]
      have hlen2 : (pre.drop b).length ≤ n2 := by
        simp only [List.length_drop]
        omega
      rw [ih (pre.drop b) (acc ++ (pre.take b).map Prod.snd)
          (db ++ ((pre.take b).map Prod.fst).flatten) hlen2]
      have hq : pre.length / b = (pre.drop b).length / b + 1 := by
        have h3 : pre.length = (pre.length - b) + b := by omega
        calc pre.length / b = ((pre.length - b) + b) / b := by rw [← h3]
          _ = (pre.length - b) / b + 1 := Nat.add_div_right _ (by omega)
          _ = (pre.drop b).length / b + 1 := by rw [List.length_drop]
      have htake : pre.take (b * (pre.length / b))
          = pre.take b ++ (pre.drop b).take (b * ((pre.drop b).length / b)) := by
        rw [hq, Nat.mul_succ, Nat.add_comm, ← List.take_add]
      simp only []
      rw [htake, hq, List.replicate_succ]
      simp [List.flatten_append, List.append_assoc, List.map_append]

end BatchLemmas

/-- Claim C4: for every list of all-succeeding operations and every
positive `batch_size`, `DatabaseManager.batch_operation` partitions the
list into consecutive chunks of `batch_size` operations (`chunksOf`,
the last chunk possibly smaller), commits once per chunk, makes every
operation's writes durable in input order, and returns the list of all
results in input order. -/
theorem batch_operation_all_success {α : Type}
    (vals : List (List Nat × α)) (b : Nat) (db : List Nat) (hb : 0 < b) :
    batch_operation (allOk vals) b db
      = (OpResult.ok (vals.map Prod.snd),
         db ++ (vals.map Prod.fst).flatten,
         (chunksOf b vals).map fun _ => SEvent.commit) := by
  have h := batchGo_all_ok b (by omega) vals.length vals [] db
    (Nat.le_refl _)
  simpa [batch_operation] using h

/-- Witness for C4: three operations in chunks of two commit twice,
write effects 1, 2, 3 in order after the existing contents, and return
the results in order. -/
theorem batch_operation_all_success_witness :
    batch_operation (α := Nat) (allOk [([1], 10), ([2], 20), ([3], 30)])
      2 [0]
      = (OpResult.ok [10, 20, 30], [0, 1, 2, 3],
         [SEvent.commit, SEvent.commit]) := by
  rw [batch_operation_all_success [([1], 10), ([2], 20), ([3], 30)] 2 [0]
    (by decide)]
  simp [chunksOf]

/-- Claim C5: when the first failing operation sits after `pre`
all-succeeding operations, `DatabaseManager.batch_operation` commits
exactly the full chunks before the failing chunk (their writes, and
nothing of the failing chunk or beyond, are durable), rolls back the
failing chunk and raises the failure; no operation of a later chunk
runs. -/
theorem batch_operation_chunk_failure {α : Type}
    (pre : List (List Nat × α)) (ef : List Nat) (e : PyExc)
    (rest : List (List Nat × OpResult α)) (b : Nat) (db : List Nat)
    (hb : 0 < b) :
    batch_operation (allOk pre ++ (ef, OpResult.raise e) :: rest) b db
      = (OpResult.raise e,
         db ++ ((pre.take (b * (pre.length / b))).map Prod.fst).flatten,
         List.replicate (pre.length / b) SEvent.commit
           ++ [SEvent.rollback]) := by
  have h := batchGo_first_raise b (by omega) ef e rest pre.length pre [] db
    (Nat.le_refl _)
  simpa [batch_operation] using h

/-- Witness for C5: with chunks of two, a failure at the third operation
commits the first chunk (effects 1, 2), discards the failing chunk's
writes, raises the failure, and never runs the fourth operation. -/
theorem batch_operation_chunk_failure_witness :
    batch_operation (α := Nat)
      (allOk [([1], 10), ([2], 20), ([3], 30)]
        ++ ([9], OpResult.raise (PyExc.sqlError 7)) :: [([4], OpResult.ok 40)])
      2 []
      = (OpResult.raise (PyExc.sqlError 7), [1, 2],
         [SEvent.commit, SEvent.rollback]) := by
  rw [batch_operation_chunk_failure [([1], 10), ([2], 20), ([3], 30)] [9]
    (PyExc.sqlError 7) [([4], OpResult.ok 40)] 2 [] (by decide)]
  simp

end Bom
